import Mathlib

/-!
Verification of the rtsp-simple-server playback/fMP4 engine and RTSP source
worker against its specification.

The definitions below are shallow embeddings of the Go source:

* `durationGoToMp4` / `durationMp4ToGo` embed the functions of the same
  names (src/unnamed/part_000, lines 20-32).  `time.Duration` is an int64
  nanosecond count; every duration appearing in the claims is non-negative
  and far below 2^63, so durations are modelled as `Nat` (exact: no int64
  or uint64 wrap can occur in the modelled ranges).
* `segmentFMP4CanBeConcatenated` embeds lines 36-45; `time.Time` values are
  modelled as `Int` nanosecond instants.
-/

def nsPerSecond : Nat := 1000000000

def fmp4Timescale : Nat := 90000

/-- Embeds durationGoToMp4 (src/unnamed/part_000 lines 20-25):
secs := v / time.Second; dec := v % time.Second;
result = secs*timeScale + dec*timeScale/time.Second, all integer ops. -/
def durationGoToMp4 (v : Nat) (timeScale : Nat) : Nat :=
  v / nsPerSecond * timeScale + v % nsPerSecond * timeScale / nsPerSecond

/-- Embeds durationMp4ToGo (src/unnamed/part_000 lines 27-32):
secs := v / timeScale; dec := v % timeScale;
result = secs*time.Second + dec*time.Second/timeScale, all integer ops. -/
def durationMp4ToGo (v : Nat) (timeScale : Nat) : Nat :=
  v / timeScale * nsPerSecond + v % timeScale * nsPerSecond / timeScale

/-- Embeds concatenationTolerance (line 16): 500 * time.Millisecond, in ns. -/
def concatenationTolerance : Int := 500000000

/-- Embeds segmentFMP4CanBeConcatenated (lines 36-45).  Init sections are
byte lists; instants are `Int` nanoseconds.  `bytes.Equal` is list equality;
`!curStart.Before(prevEnd.Add(-tol))` is `!(curStart < prevEnd - tol)` and
`!curStart.After(prevEnd.Add(tol))` is `!(curStart > prevEnd + tol)`. -/
def segmentFMP4CanBeConcatenated (prevInit : List Nat) (prevEnd : Int)
    (curInit : List Nat) (curStart : Int) : Bool :=
  (prevInit == curInit) &&
    !(curStart < prevEnd - concatenationTolerance) &&
    !(curStart > prevEnd + concatenationTolerance)

/-!
Structured model of the fMP4 box walk shared by segmentFMP4SeekAndMuxParts
(src/unnamed/part_000 lines 308-417) and segmentFMP4WriteParts (lines
419-516).  mp4.ReadBoxStructure visits boxes in file order, expanding moof
and traf; per spec invariant 3.2 every traf carries exactly one tfhd, one
tfdt and one trun, in that order, which is what the handler relies on (it
dereferences the saved tfhd/tfdt pointers).  A segment is therefore
modelled as the ordered list of top-level boxes, a moof carrying its traf
contents already parsed by the external go-mp4 library.  Sample payloads
(read with io.ReadFull at moofOffset + trun.DataOffset) are carried inside
each trun entry; read errors, which the Go code would propagate to the
caller, are outside the modelled claims, which all presuppose a well-formed
readable segment.  uint64 quantities are modelled as Nat: they are exact
as long as tfdt.baseMediaDecodeTime plus the summed sample durations stays
below 2^63 (`trafBounded`), which also keeps the int64 conversions of the
Go code exact.  The one place where uint64 wraparound is semantically
interesting - the final `maxElapsed -= minTimeMP4` of lines 414 - is
modelled faithfully by `sub64`.
-/

structure TrunEntry where
  sampleDuration : Nat
  sampleSize : Nat
  sampleFlags : Nat
  sampleCompositionTimeOffsetV1 : Int
  payload : List Nat
deriving DecidableEq

structure Traf where
  trackID : Nat
  baseMediaDecodeTimeV1 : Nat
  dataOffset : Int
  entries : List TrunEntry
deriving DecidableEq

inductive SegBox where
  | moof (moofOffset : Nat) (trafs : List Traf)
  | mdat
deriving DecidableEq

/-- Trace of the calls the engine makes on the muxer interface (spec 4.3). -/
inductive MuxerCall where
  | setTrack (id : Nat)
  | writeSample (normalizedElapsed : Int) (sampleDuration : Nat)
      (ptsOffset : Int) (isNonSyncSample : Bool) (payload : List Nat)
  | flush
deriving DecidableEq

/-- Embeds `(e.SampleFlags & sampleFlagIsNonSyncSample) != 0` with
sampleFlagIsNonSyncSample = 1 << 16 (line 15). -/
def isNonSync (flags : Nat) : Bool := flags.testBit 16

/-- uint64 subtraction with wraparound, for `maxElapsed -= minTimeMP4`
(line 414). -/
def sub64 (a b : Nat) : Nat := (a + 2 ^ 64 - b) % 2 ^ 64

/-- The trun handler loop of segmentFMP4SeekAndMuxParts (lines 367-392):
for each entry, after the payload read, stop if elapsed >= maxTimeMP4;
otherwise emit the sample at normalizedElapsed = elapsed - minTimeMP4
(signed), recording whether some sample had normalizedElapsed >= 0.
Returns (muxer calls, final elapsed, atLeastOnePartWritten contribution). -/
def muxTrunEntries (minTimeMP4 maxTimeMP4 : Nat) (elapsed : Nat) :
    List TrunEntry → List MuxerCall × Nat × Bool
  | [] => ([], elapsed, false)
  | e :: rest =>
    if maxTimeMP4 ≤ elapsed then ([], elapsed, false)
    else
      let normalizedElapsed : Int := (elapsed : Int) - (minTimeMP4 : Int)
      let r := muxTrunEntries minTimeMP4 maxTimeMP4 (elapsed + e.sampleDuration) rest
      (MuxerCall.writeSample normalizedElapsed e.sampleDuration
          e.sampleCompositionTimeOffsetV1 (isNonSync e.sampleFlags) e.payload :: r.1,
        r.2.1, decide (0 ≤ normalizedElapsed) || r.2.2)

structure SeekState where
  maxElapsed : Nat
  atLeastOnePartWritten : Bool
deriving DecidableEq

/-- The traf handlers of segmentFMP4SeekAndMuxParts: tfhd saves the track
id, tfdt aborts the whole walk with errTerminated when
baseMediaDecodeTime >= maxTimeMP4 (lines 345-347), otherwise setTrack is
called (line 349) and the trun handler runs; after the entry loop,
maxElapsed is raised to the final elapsed (lines 394-396).  The Bool result
records early termination. -/
def muxTrafs (minT maxT : Nat) :
    List Traf → SeekState → List MuxerCall × SeekState × Bool
  | [], st => ([], st, false)
  | t :: rest, st =>
    if maxT ≤ t.baseMediaDecodeTimeV1 then ([], st, true)
    else
      let r := muxTrunEntries minT maxT t.baseMediaDecodeTimeV1 t.entries
      let st1 : SeekState :=
        { maxElapsed := max st.maxElapsed r.2.1,
          atLeastOnePartWritten := st.atLeastOnePartWritten || r.2.2 }
      let r2 := muxTrafs minT maxT rest st1
      (MuxerCall.setTrack t.trackID :: (r.1 ++ r2.1), r2.2.1, r2.2.2)

/-- Top-level box walk of segmentFMP4SeekAndMuxParts: moof expands into its
trafs, mdat flushes the muxer (lines 398-402); errTerminated from a tfdt
aborts the remaining walk. -/
def muxBoxes (minT maxT : Nat) :
    List SegBox → SeekState → List MuxerCall × SeekState × Bool
  | [], st => ([], st, false)
  | SegBox.moof _ trafs :: rest, st =>
    let r := muxTrafs minT maxT trafs st
    if r.2.2 then (r.1, r.2.1, true)
    else
      let r2 := muxBoxes minT maxT rest r.2.1
      (r.1 ++ r2.1, r2.2.1, r2.2.2)
  | SegBox.mdat :: rest, st =>
    let r2 := muxBoxes minT maxT rest st
    (MuxerCall.flush :: r2.1, r2.2.1, r2.2.2)

inductive SegError where
  | noSegmentsFound
deriving DecidableEq

/-- Embeds segmentFMP4SeekAndMuxParts (lines 308-417), returning the trace
of muxer calls together with the Go return value.  errTerminated is
swallowed (line 406); if no sample was written with normalizedElapsed >= 0
the function fails with errNoSegmentsFound (lines 410-412); otherwise it
returns durationMp4ToGo of the uint64 difference maxElapsed - minTimeMP4
(lines 414-416). -/
def segmentFMP4SeekAndMuxParts (seg : List SegBox) (minTime maxTime : Nat) :
    List MuxerCall × Except SegError Nat :=
  let minTimeMP4 := durationGoToMp4 minTime fmp4Timescale
  let maxTimeMP4 := durationGoToMp4 maxTime fmp4Timescale
  let r := muxBoxes minTimeMP4 maxTimeMP4 seg
    { maxElapsed := 0, atLeastOnePartWritten := false }
  if r.2.1.atLeastOnePartWritten = false then
    (r.1, Except.error SegError.noSegmentsFound)
  else
    (r.1, Except.ok (durationMp4ToGo (sub64 r.2.1.maxElapsed minTimeMP4) fmp4Timescale))

/-- The trun handler loop of segmentFMP4WriteParts (lines 476-497): same
shape as the seek variant, but the emitted timestamp is
elapsed + durationGoToMp4(startTime) and nothing is skipped or recorded. -/
def writeTrunEntries (startTimeMP4 maxTimeMP4 : Nat) (elapsed : Nat) :
    List TrunEntry → List MuxerCall × Nat
  | [] => ([], elapsed)
  | e :: rest =>
    if maxTimeMP4 ≤ elapsed then ([], elapsed)
    else
      let normalizedElapsed : Int := (elapsed : Int) + (startTimeMP4 : Int)
      let r := writeTrunEntries startTimeMP4 maxTimeMP4 (elapsed + e.sampleDuration) rest
      (MuxerCall.writeSample normalizedElapsed e.sampleDuration
          e.sampleCompositionTimeOffsetV1 (isNonSync e.sampleFlags) e.payload :: r.1,
        r.2)

/-- The traf handlers of segmentFMP4WriteParts (lines 440-501). -/
def writeTrafs (startT maxT : Nat) :
    List Traf → Nat → List MuxerCall × Nat × Bool
  | [], maxElapsed => ([], maxElapsed, false)
  | t :: rest, maxElapsed =>
    if maxT ≤ t.baseMediaDecodeTimeV1 then ([], maxElapsed, true)
    else
      let r := writeTrunEntries startT maxT t.baseMediaDecodeTimeV1 t.entries
      let r2 := writeTrafs startT maxT rest (max maxElapsed r.2)
      (MuxerCall.setTrack t.trackID :: (r.1 ++ r2.1), r2.2.1, r2.2.2)

/-- Top-level box walk of segmentFMP4WriteParts (lines 431-510). -/
def writeBoxes (startT maxT : Nat) :
    List SegBox → Nat → List MuxerCall × Nat × Bool
  | [], m => ([], m, false)
  | SegBox.moof _ trafs :: rest, m =>
    let r := writeTrafs startT maxT trafs m
    if r.2.2 then (r.1, r.2.1, true)
    else
      let r2 := writeBoxes startT maxT rest r.2.1
      (r.1 ++ r2.1, r2.2.1, r2.2.2)
  | SegBox.mdat :: rest, m =>
    let r2 := writeBoxes startT maxT rest m
    (MuxerCall.flush :: r2.1, r2.2.1, r2.2.2)

/-- Embeds segmentFMP4WriteParts (lines 419-516): never fails on a readable
segment (errTerminated is swallowed, line 511) and returns
durationMp4ToGo of the final maxElapsed. -/
def segmentFMP4WriteParts (seg : List SegBox) (startTime maxTime : Nat) :
    List MuxerCall × Nat :=
  let r := writeBoxes (durationGoToMp4 startTime fmp4Timescale)
    (durationGoToMp4 maxTime fmp4Timescale) seg 0
  (r.1, durationMp4ToGo r.2.1 fmp4Timescale)

/-- The timestamps of the writeSample calls of a muxer trace, in order. -/
def writeSampleTimes : List MuxerCall → List Int
  | [] => []
  | MuxerCall.writeSample n _ _ _ _ :: rest => n :: writeSampleTimes rest
  | MuxerCall.setTrack _ :: rest => writeSampleTimes rest
  | MuxerCall.flush :: rest => writeSampleTimes rest

/-- The media times (in 90000-tick units) at which the samples of a trun
start, given the starting decode time. -/
def elapsedTimes (elapsed : Nat) : List TrunEntry → List Nat
  | [] => []
  | e :: rest => elapsed :: elapsedTimes (elapsed + e.sampleDuration) rest

/-- A traf whose decode times fit comfortably in int64/uint64: the Nat
model then agrees exactly with the Go machine arithmetic. -/
def trafBounded (t : Traf) : Bool :=
  decide (t.baseMediaDecodeTimeV1 +
    (t.entries.map (fun e => e.sampleDuration)).sum < 2 ^ 63)

def boxBounded : SegBox → Bool
  | SegBox.moof _ trafs => trafs.all trafBounded
  | SegBox.mdat => true

def segBounded (seg : List SegBox) : Bool := seg.all boxBounded

/-- A concrete two-box segment: one moof with a single traf (track 1,
decode time 0, one sample lasting one second), then its mdat. -/
def segOneSample : List SegBox :=
  [SegBox.moof 0 [Traf.mk 1 0 8 [TrunEntry.mk 90000 1 0 0 [7]]], SegBox.mdat]

/-!
Byte-level model for segmentFMP4ReadMaxDuration (src/unnamed/part_000
lines 97-306), which walks the file with raw io.ReadFull / Seek calls.
An io.ReadSeeker over a file is a byte list plus a position; seeking past
the end succeeds (later reads fail), seeking to a negative position fails.
-/

structure ByteReader where
  fileData : List Nat
  pos : Nat
deriving DecidableEq

/-- io.ReadFull(r, buf) with an n-byte buffer: succeeds iff n bytes remain
before the end of the file, advancing the position. -/
def readFull (r : ByteReader) (n : Nat) : Option (List Nat × ByteReader) :=
  if r.pos + n ≤ r.fileData.length then
    some ((r.fileData.drop r.pos).take n, ByteReader.mk r.fileData (r.pos + n))
  else none

/-- r.Seek(off, io.SeekStart): fails only on a negative target. -/
def seekStart (r : ByteReader) (off : Int) : Option ByteReader :=
  if off < 0 then none else some (ByteReader.mk r.fileData off.toNat)

/-- r.Seek(off, io.SeekCurrent): fails only on a negative target. -/
def seekCurrent (r : ByteReader) (off : Int) : Option ByteReader :=
  if (r.pos : Int) + off < 0 then none
  else some (ByteReader.mk r.fileData ((r.pos : Int) + off).toNat)

/-- uint32(buf[0])<<24 | uint32(buf[1])<<16 | uint32(buf[2])<<8 |
uint32(buf[3]), the box size read from an 8-byte header. -/
def be32 : List Nat → Nat
  | b0 :: b1 :: b2 :: b3 :: _ =>
    Nat.lor (Nat.lor (Nat.lor (Nat.shiftLeft b0 24) (Nat.shiftLeft b1 16))
      (Nat.shiftLeft b2 8)) b3
  | _ => 0

def ftypTag : List Nat := [102, 116, 121, 112]

def moovTag : List Nat := [109, 111, 111, 118]

def moofTag : List Nat := [109, 111, 111, 102]

def mdatTag : List Nat := [109, 100, 97, 116]

def mfhdTag : List Nat := [109, 102, 104, 100]

def trafTag : List Nat := [116, 114, 97, 102]

def tfhdTag : List Nat := [116, 102, 104, 100]

def tfdtTag : List Nat := [116, 102, 100, 116]

def trunTag : List Nat := [116, 114, 117, 110]

/-- The error values segmentFMP4ReadMaxDuration can return: a propagated
IO error, one of the fmt.Errorf box-layout errors, the no-moof-boxes
sentinel, or the wrapped mp4.Unmarshal failures.  `unbounded` is a model
artifact of the traf-loop fuel, see `parseTrafs`. -/
inductive MP4Err where
  | ioError
  | ftypNotFound
  | moovNotFound
  | moofNotFound
  | mdatNotFound
  | noMoofBoxes
  | mfhdNotFound
  | trafNotFound
  | tfhdNotFound
  | tfdtNotFound
  | trunNotFound
  | invalidTfdt
  | invalidTrun
  | unbounded
deriving DecidableEq

/-- Lines 98-133 of segmentFMP4ReadMaxDuration: read and check the ftyp
header, seek to the end of ftyp, read and check the moov header, seek over
the moov body.  Every failure in this phase, IO errors included, is
returned to the caller. -/
def segmentFMP4AfterMoov (r0 : ByteReader) : Except MP4Err ByteReader :=
  match readFull r0 8 with
  | none => Except.error MP4Err.ioError
  | some (buf, r1) =>
    if buf.drop 4 ≠ ftypTag then Except.error MP4Err.ftypNotFound
    else
      match seekStart r1 (be32 buf : Int) with
      | none => Except.error MP4Err.ioError
      | some r2 =>
        match readFull r2 8 with
        | none => Except.error MP4Err.ioError
        | some (buf2, r3) =>
          if buf2.drop 4 ≠ moovTag then Except.error MP4Err.moovNotFound
          else
            match seekCurrent r3 ((be32 buf2 : Int) - 8) with
            | none => Except.error MP4Err.ioError
            | some r4 => Except.ok r4

/-- The last-pair scan of segmentFMP4ReadMaxDuration (lines 137-178).  Each
iteration remembers the current offset, reads an 8-byte header (a short
read ends the scan, keeping the last recorded pair), requires the moof tag
(a mismatch is a hard error), seeks over the moof body (a failed seek ends
the scan), reads the next header likewise, requires the mdat tag, seeks
over the mdat body, and records the pair offset.  The fuel argument only
guards Lean termination: every successful iteration strictly advances the
position while a read keeps it within the file, so the fuel
fileData.length + 1 passed by segmentFMP4ReadMaxDuration can never run
out; exhausted fuel behaves like the end of the file. -/
def scanPairs : Nat → ByteReader → Option Nat → Except MP4Err (Option Nat)
  | 0, _, last => Except.ok last
  | fuel + 1, r, last =>
    match readFull r 8 with
    | none => Except.ok last
    | some (buf, r1) =>
      if buf.drop 4 ≠ moofTag then Except.error MP4Err.moofNotFound
      else
        match seekCurrent r1 ((be32 buf : Int) - 8) with
        | none => Except.ok last
        | some r2 =>
          match readFull r2 8 with
          | none => Except.ok last
          | some (buf2, r3) =>
            if buf2.drop 4 ≠ mdatTag then Except.error MP4Err.mdatNotFound
            else
              match seekCurrent r3 ((be32 buf2 : Int) - 8) with
              | none => Except.ok last
              | some r4 => scanPairs fuel r4 (some r.pos)

/-- Big-endian 64-bit field, as decoded by the external go-mp4 library
(bytes below 256, as produced by a reader over a byte file). -/
def be64 : List Nat → Nat
  | b0 :: b1 :: b2 :: b3 :: b4 :: b5 :: b6 :: b7 :: _ =>
    ((((((b0 * 256 + b1) * 256 + b2) * 256 + b3) * 256 + b4) * 256 + b5)
      * 256 + b6) * 256 + b7
  | _ => 0

/-- The external mp4.Unmarshal of a tfdt payload: a version byte, three
flag bytes, then a 64-bit decode time for version 1 or a 32-bit one for
version 0.  The engine reads tfdt.BaseMediaDecodeTimeV1 (line 294), which
stays 0 for a version-0 box.  Unmarshal fails on a truncated payload; the
model also rejects unknown versions. -/
def parseTfdtV1 (b : List Nat) : Except MP4Err Nat :=
  match b with
  | v :: _ :: _ :: _ :: rest =>
    if v = 1 then
      (if 8 ≤ rest.length then Except.ok (be64 rest)
       else Except.error MP4Err.invalidTfdt)
    else if v = 0 then
      (if 4 ≤ rest.length then Except.ok 0
       else Except.error MP4Err.invalidTfdt)
    else Except.error MP4Err.invalidTfdt
  | _ => Except.error MP4Err.invalidTfdt

/-- Bytes occupied by one trun entry given the trun flags: duration
(bit 8), size (bit 9), sample flags (bit 10), composition offset (bit 11),
4 bytes each, in that order. -/
def trunEntrySize (flags : Nat) : Nat :=
  (if flags.testBit 8 then 4 else 0) + (if flags.testBit 9 then 4 else 0) +
    (if flags.testBit 10 then 4 else 0) + (if flags.testBit 11 then 4 else 0)

/-- Sum of the SampleDuration fields over `count` trun entries (0 when the
duration-present flag is off, matching the zero value the engine adds at
line 297). -/
def trunDurationSum (flags : Nat) : Nat → List Nat → Nat
  | 0, _ => 0
  | k + 1, bytes =>
    (if flags.testBit 8 then be32 bytes else 0) +
      trunDurationSum flags k (bytes.drop (trunEntrySize flags))

/-- The external mp4.Unmarshal of a trun payload: version byte, three flag
bytes, 32-bit sample count, optional data offset (flag bit 0) and first
sample flags (flag bit 2), then the entries.  The engine only consumes the
per-entry SampleDuration sum (lines 296-298).  Unmarshal fails on a
truncated payload. -/
def parseTrunDurationSum (b : List Nat) : Except MP4Err Nat :=
  match b with
  | _ :: f2 :: f1 :: f0 :: c3 :: c2 :: c1 :: c0 :: rest =>
    let flags := (f2 * 256 + f1) * 256 + f0
    let count := be32 [c3, c2, c1, c0]
    let headerLen := (if flags.testBit 0 then 4 else 0) +
      (if flags.testBit 2 then 4 else 0)
    if headerLen + count * trunEntrySize flags ≤ rest.length then
      Except.ok (trunDurationSum flags count (rest.drop headerLen))
    else Except.error MP4Err.invalidTrun
  | _ => Except.error MP4Err.invalidTrun

/-- The traf loop of segmentFMP4ReadMaxDuration (lines 211-303): read an
8-byte header; an mdat tag ends the loop, any tag other than traf is a hard
error; otherwise read the tfhd header and seek over its body, read and
unmarshal the tfdt payload, read and unmarshal the trun payload, and raise
maxElapsed to base + summed durations (lines 294-302).  IO failures in
this phase are returned as errors, unlike in the scan.  Fuel only guards
Lean termination: on adversarial box sizes whose seeks move the position
backwards the Go loop would not terminate; `MP4Err.unbounded` marks that
model-only outcome and is unreachable for forward-moving segments. -/
def parseTrafs : Nat → ByteReader → Nat → Except MP4Err Nat
  | 0, _, _ => Except.error MP4Err.unbounded
  | fuel + 1, r, maxElapsed =>
    match readFull r 8 with
    | none => Except.error MP4Err.ioError
    | some (buf, r1) =>
      if buf.drop 4 ≠ trafTag then
        (if buf.drop 4 = mdatTag then Except.ok maxElapsed
         else Except.error MP4Err.trafNotFound)
      else
        match readFull r1 8 with
        | none => Except.error MP4Err.ioError
        | some (b2, r2) =>
          if b2.drop 4 ≠ tfhdTag then Except.error MP4Err.tfhdNotFound
          else
            match seekCurrent r2 ((be32 b2 : Int) - 8) with
            | none => Except.error MP4Err.ioError
            | some r3 =>
              match readFull r3 8 with
              | none => Except.error MP4Err.ioError
              | some (b3, r4) =>
                if b3.drop 4 ≠ tfdtTag then Except.error MP4Err.tfdtNotFound
                else
                  match readFull r4 (be32 b3 - 8) with
                  | none => Except.error MP4Err.ioError
                  | some (tfdtBody, r5) =>
                    match parseTfdtV1 tfdtBody with
                    | Except.error e => Except.error e
                    | Except.ok base =>
                      match readFull r5 8 with
                      | none => Except.error MP4Err.ioError
                      | some (b4, r6) =>
                        if b4.drop 4 ≠ trunTag then
                          Except.error MP4Err.trunNotFound
                        else
                          match readFull r6 (be32 b4 - 8) with
                          | none => Except.error MP4Err.ioError
                          | some (trunBody, r7) =>
                            match parseTrunDurationSum trunBody with
                            | Except.error e => Except.error e
                            | Except.ok dsum =>
                              parseTrafs fuel r7 (max maxElapsed (base + dsum))

/-- Embeds segmentFMP4ReadMaxDuration (lines 97-306): skip ftyp and moov,
scan for the last complete moof/mdat pair (IO failures there just end the
scan), fail with the "no moof boxes found" error when no pair was
recorded, then re-seek to just after the last moof header, check and skip
the mfhd, run the traf loop, and convert the final maxElapsed to real
time. -/
def segmentFMP4ReadMaxDuration (r0 : ByteReader) : Except MP4Err Nat :=
  match segmentFMP4AfterMoov r0 with
  | Except.error e => Except.error e
  | Except.ok r =>
    match scanPairs (r.fileData.length + 1) r none with
    | Except.error e => Except.error e
    | Except.ok none => Except.error MP4Err.noMoofBoxes
    | Except.ok (some lastMoofPos) =>
      match seekStart r ((lastMoofPos : Int) + 8) with
      | none => Except.error MP4Err.ioError
      | some r1 =>
        match readFull r1 8 with
        | none => Except.error MP4Err.ioError
        | some (buf, r2) =>
          if buf.drop 4 ≠ mfhdTag then Except.error MP4Err.mfhdNotFound
          else
            match seekCurrent r2 8 with
            | none => Except.error MP4Err.ioError
            | some r3 =>
              match parseTrafs (r3.fileData.length + 1) r3 0 with
              | Except.error e => Except.error e
              | Except.ok maxElapsed =>
                Except.ok (durationMp4ToGo maxElapsed fmp4Timescale)

/-- A concrete file that is a valid ftyp and moov followed by three bytes
of trailing garbage: no moof/mdat pair can even be read. -/
def segNoPairs : List Nat :=
  [0, 0, 0, 8, 102, 116, 121, 112, 0, 0, 0, 8, 109, 111, 111, 118, 0, 0, 0]

/-!
Model of the RTSP source worker (src/internal/core/rtsp_source.go).  The
worker is a retry loop (run, lines 92-115) around one connection attempt
(runInner, lines 117-227); the attempt runs the RTSP session on a child
goroutine and supervises it by selecting between the session result
channel and the cancellation context.  The model records the externally
visible effects of a run as a trace of actions, serialized in
per-goroutine order (the claims about the worker count calls and inspect
membership, which serialization preserves).  The outcomes of the external
calls (URL parse, client start, OPTIONS, DESCRIBE, SETUP, the parent's
readiness response, PLAY) and of the two cancellation-sensitive selects
are drawn from an environment, one per loop iteration.
-/

inductive LogMsg where
  | started
  | stopped
  | connecting
  | ready
  | errMsg
deriving DecidableEq

inductive WAction where
  | logInfo (m : LogMsg)
  | logDebug (m : LogMsg)
  | ctxCancel
  | wgDone
  | wgWait
  | optionsReq
  | describeReq
  | setupReq
  | readyReq (accepted : Bool)
  | notReadyReq
  | playReq
  | clientClose
  | cooldownWait
deriving DecidableEq

structure InnerEnv where
  parseURLOk : Bool
  startOk : Bool
  optionsOk : Bool
  describeOk : Bool
  setupOk : Bool
  readyAccepted : Bool
  playOk : Bool
  sessionCancelled : Bool
  cooldownCancelled : Bool
deriving DecidableEq

inductive InnerOutcome where
  | retry
  | stopped
  | panicked
deriving DecidableEq

inductive RunOutcome where
  | stopped
  | panicked
  | horizon
deriving DecidableEq

/-- The session goroutine body of rtspSource.runInner
(src/internal/core/rtsp_source.go lines 166-215): OPTIONS, then DESCRIBE,
then SETUP for every track - a SETUP error calls panic(err) (line 182) -
then the readiness request to the parent (a refusal returns before the
not-ready defer is installed, lines 186-191), the ready log, the
not-ready defer, PLAY, and the client wait.  Once the defer is installed,
OnSourceStaticSetNotReady runs on every exit, whether PLAY or Wait ended
with an error or cancellation closed the client.  SETUP is aggregated
over the tracks (setupOk = false means some track's SETUP failed, which
presupposes at least one track).  The Bool result reports the panic. -/
def sessionBody (env : InnerEnv) : List WAction × Bool :=
  if env.optionsOk = false then ([WAction.optionsReq], false)
  else if env.describeOk = false then
    ([WAction.optionsReq, WAction.describeReq], false)
  else if env.setupOk = false then
    ([WAction.optionsReq, WAction.describeReq, WAction.setupReq], true)
  else if env.readyAccepted = false then
    ([WAction.optionsReq, WAction.describeReq, WAction.setupReq,
      WAction.readyReq false], false)
  else
    ([WAction.optionsReq, WAction.describeReq, WAction.setupReq,
      WAction.readyReq true, WAction.logInfo LogMsg.ready, WAction.playReq,
      WAction.notReadyReq], false)

/-- rtspSource.runInner (lines 117-227): parse the URL and start the
client (each failure is logged at INFO level and retried, lines 154-164);
then run the session body on the child goroutine and select between its
result and cancellation (lines 217-226).  A session panic crashes the
whole process: no log, no retry, and the supervising select never
returns.  On cancellation the client is closed and the error channel
drained - the drain means the session body, including its deferred
not-ready call, still completes.  Otherwise the session error is logged
at INFO level and the worker retries. -/
def rtspSourceRunInner (env : InnerEnv) : List WAction × InnerOutcome :=
  if env.parseURLOk = false then
    ([WAction.logDebug LogMsg.connecting, WAction.logInfo LogMsg.errMsg],
      InnerOutcome.retry)
  else if env.startOk = false then
    ([WAction.logDebug LogMsg.connecting, WAction.logInfo LogMsg.errMsg],
      InnerOutcome.retry)
  else if (sessionBody env).2 then
    (WAction.logDebug LogMsg.connecting :: (sessionBody env).1,
      InnerOutcome.panicked)
  else if env.sessionCancelled then
    (WAction.logDebug LogMsg.connecting ::
      ((sessionBody env).1 ++ [WAction.clientClose]), InnerOutcome.stopped)
  else
    (WAction.logDebug LogMsg.connecting ::
      ((sessionBody env).1 ++ [WAction.logInfo LogMsg.errMsg]),
      InnerOutcome.retry)

/-- rtspSource.run (lines 92-115): loop runInner; after a retriable
failure wait out the 5-second pause (cooldownWait) unless cancellation
fires during it; when the loop exits, cancel the context (line 114) and
release the parent WaitGroup (the deferred wg.Done, line 93).  A panic in
the session goroutine crashes the process, so neither happens.  The
schedule list supplies one environment per iteration; an exhausted
schedule leaves the worker still looping (RunOutcome.horizon). -/
def rtspSourceRun : List InnerEnv → List WAction × RunOutcome
  | [] => ([], RunOutcome.horizon)
  | env :: rest =>
    match (rtspSourceRunInner env).2 with
    | InnerOutcome.panicked =>
      ((rtspSourceRunInner env).1, RunOutcome.panicked)
    | InnerOutcome.stopped =>
      ((rtspSourceRunInner env).1 ++ [WAction.ctxCancel, WAction.wgDone],
        RunOutcome.stopped)
    | InnerOutcome.retry =>
      if env.cooldownCancelled then
        ((rtspSourceRunInner env).1 ++ [WAction.ctxCancel, WAction.wgDone],
          RunOutcome.stopped)
      else
        ((rtspSourceRunInner env).1 ++
          WAction.cooldownWait :: (rtspSourceRun rest).1,
          (rtspSourceRun rest).2)

/-- rtspSource.close (lines 83-86): log "stopped" and cancel the context.
Nothing else happens in close: no WaitGroup wait, no join, no readiness
interaction. -/
def rtspSourceClose : List WAction :=
  [WAction.logInfo LogMsg.stopped, WAction.ctxCancel]

def isReadyOk : WAction → Bool
  | WAction.readyReq true => true
  | _ => false

def isReadyCall : WAction → Bool
  | WAction.readyReq _ => true
  | _ => false

def isNotReady : WAction → Bool
  | WAction.notReadyReq => true
  | _ => false

def isReadyLog : WAction → Bool
  | WAction.logInfo LogMsg.ready => true
  | _ => false

/-- Number of onSourceStaticSetReady calls the parent accepted. -/
def readyOkCount (l : List WAction) : Nat := (l.filter isReadyOk).length

/-- Number of onSourceStaticSetReady calls made, accepted or refused. -/
def readyCallCount (l : List WAction) : Nat := (l.filter isReadyCall).length

/-- Number of OnSourceStaticSetNotReady calls made. -/
def notReadyCount (l : List WAction) : Nat := (l.filter isNotReady).length

/-- Number of "ready" INFO log lines (the worker reaching ready). -/
def readyLogCount (l : List WAction) : Nat := (l.filter isReadyLog).length

/-- Environment where the transport and OPTIONS/DESCRIBE succeed and a
track's SETUP fails. -/
def setupFailEnv : InnerEnv :=
  InnerEnv.mk true true true true false true true false false

/-- Environment where the session reaches the readiness request, the
parent refuses it, and the following cooldown is cancelled. -/
def readyRefusedEnv : InnerEnv :=
  InnerEnv.mk true true true true true false true false true

-- ===================== THEOREMS =====================

/-- C4 counterexample: the claimed round trip
`durationGoToMp4 (durationMp4ToGo v 90000) 90000 = v` fails at the concrete
tick v = 1 (which lies in [0, 2^32)): the round trip yields 0. -/
theorem durationRoundTrip_fails_at_one :
    1 < 2 ^ 32 ∧ durationGoToMp4 (durationMp4ToGo 1 90000) 90000 ≠ 1 := by
  constructor
  · decide
  · decide

/-- C4 (amended): for every tick v in [0, 2^32), the round trip
`durationGoToMp4 (durationMp4ToGo v 90000) 90000` equals v when v is
divisible by 9 and v - 1 otherwise (the fractional-second leg loses one
tick whenever v mod 9 is nonzero, because 10^9 is not a multiple of
90000/gcd arithmetic: 1s = 90000 ticks only splits evenly in ninths). -/
theorem durationRoundTrip_characterization (v : Nat) (hv : v < 2 ^ 32) :
    durationGoToMp4 (durationMp4ToGo v 90000) 90000 =
      if v % 9 = 0 then v else v - 1 := by
  have key : ∀ q m : Nat, m < 90000 →
      durationGoToMp4 (q * 1000000000 + m * 1000000000 / 90000) 90000 =
        q * 90000 + (if m % 9 = 0 then m else m - 1) := by
    intro q m hm
    have e1 : m * 1000000000 / 90000 = m * 100000 / 9 := by omega
    unfold durationGoToMp4 nsPerSecond
    rw [e1]
    have h2 : m * 100000 / 9 < 1000000000 := by omega
    have e2 : (q * 1000000000 + m * 100000 / 9) / 1000000000 = q := by omega
    have e3 : (q * 1000000000 + m * 100000 / 9) % 1000000000 =
        m * 100000 / 9 := by omega
    rw [e2, e3]
    have e4 : m * 100000 / 9 * 90000 / 1000000000 =
        m * 100000 / 9 * 9 / 100000 := by omega
    rw [e4]
    have h9 : m * 100000 % 9 = m % 9 := by
      rw [Nat.mul_mod]
      omega
    have hdm := Nat.div_add_mod (m * 100000) 9
    have e5 : m * 100000 / 9 * 9 / 100000 =
        if m % 9 = 0 then m else m - 1 := by
      split <;> omega
    rw [e5]
  have hm : v % 90000 < 90000 := Nat.mod_lt v (by decide)
  have e0 : durationMp4ToGo v 90000 =
      v / 90000 * 1000000000 + v % 90000 * 1000000000 / 90000 := rfl
  rw [e0, key (v / 90000) (v % 90000) hm]
  have e6 : v % 90000 % 9 = v % 9 := by omega
  rw [e6]
  split <;> omega

/-- Witness for the amended C4 theorem at the concrete ticks 9 and 10. -/
theorem durationRoundTrip_characterization_witness :
    durationGoToMp4 (durationMp4ToGo 9 90000) 90000 = 9 ∧
      durationGoToMp4 (durationMp4ToGo 10 90000) 90000 = 9 := by
  constructor
  · have h := durationRoundTrip_characterization 9 (by decide)
    simpa using h
  · have h := durationRoundTrip_characterization 10 (by decide)
    simpa using h

/-- C5: segmentFMP4CanBeConcatenated returns true iff the init sections are
equal as byte sequences and the current start is within 500 ms (inclusive on
both sides) of the previous end; a 400 ms offset with identical inits is
accepted; a 600 ms offset is rejected; differing inits are rejected
(in particular inits differing in a single byte). -/
theorem canBeConcatenated_spec :
    (∀ (prevInit curInit : List Nat) (prevEnd curStart : Int),
      segmentFMP4CanBeConcatenated prevInit prevEnd curInit curStart = true ↔
        (prevInit = curInit ∧ (curStart - prevEnd).natAbs ≤ 500000000)) ∧
    (∀ (i : List Nat) (t : Int),
      segmentFMP4CanBeConcatenated i t i (t + 400000000) = true) ∧
    (∀ (i : List Nat) (t : Int),
      segmentFMP4CanBeConcatenated i t i (t + 600000000) = false) ∧
    (∀ (a b : List Nat) (t u : Int), a ≠ b →
      segmentFMP4CanBeConcatenated a t b u = false) ∧
    (segmentFMP4CanBeConcatenated [0, 1] 0 [0, 2] 0 = false) := by
  have key : ∀ (prevInit curInit : List Nat) (prevEnd curStart : Int),
      segmentFMP4CanBeConcatenated prevInit prevEnd curInit curStart = true ↔
        (prevInit = curInit ∧ (curStart - prevEnd).natAbs ≤ 500000000) := by
    intro prevInit curInit prevEnd curStart
    simp only [segmentFMP4CanBeConcatenated, concatenationTolerance,
      Bool.and_eq_true, Bool.not_eq_true', beq_iff_eq, decide_eq_false_iff_not,
      not_lt, not_le]
    constructor
    · rintro ⟨⟨h1, h2⟩, h3⟩
      exact ⟨h1, by omega⟩
    · rintro ⟨h1, h2⟩
      exact ⟨⟨h1, by omega⟩, by omega⟩
  refine ⟨key, ?_, ?_, ?_, ?_⟩
  · intro i t
    rw [key]
    exact ⟨rfl, by omega⟩
  · intro i t
    rcases h : segmentFMP4CanBeConcatenated i t i (t + 600000000) with _ | _
    · rfl
    · exact absurd ((key i i t (t + 600000000)).mp h).2 (by omega)
  · intro a b t u hab
    rcases h : segmentFMP4CanBeConcatenated a t b u with _ | _
    · rfl
    · exact absurd ((key a b t u).mp h).1 hab
  · decide

/-- Witness for C5 at concrete inputs: identical inits 400 ms apart are
accepted, via the main equivalence. -/
theorem canBeConcatenated_spec_witness :
    segmentFMP4CanBeConcatenated [7] 0 [7] 400000000 = true := by
  have h := (canBeConcatenated_spec.1 [7] [7] 0 400000000).mpr
  exact h ⟨rfl, by omega⟩

theorem writeSampleTimes_append (a b : List MuxerCall) :
    writeSampleTimes (a ++ b) = writeSampleTimes a ++ writeSampleTimes b := by
  induction a with
  | nil => rfl
  | cons c rest ih => cases c <;> simp [writeSampleTimes, ih]

theorem muxTrunEntries_times_lt (minT maxT : Nat) :
    ∀ (es : List TrunEntry) (elapsed : Nat),
      ∀ n ∈ writeSampleTimes (muxTrunEntries minT maxT elapsed es).1,
        (n : Int) + (minT : Int) < (maxT : Int) := by
  intro es
  induction es with
  | nil =>
    intro elapsed n hn
    simp [muxTrunEntries, writeSampleTimes] at hn
  | cons e rest ih =>
    intro elapsed n hn
    by_cases h : maxT ≤ elapsed
    · simp [muxTrunEntries, h, writeSampleTimes] at hn
    · simp only [muxTrunEntries, if_neg h, writeSampleTimes, List.mem_cons] at hn
      rcases hn with rfl | hn
      · omega
      · exact ih (elapsed + e.sampleDuration) n hn

theorem muxTrafs_times_lt (minT maxT : Nat) :
    ∀ (ts : List Traf) (st : SeekState),
      ∀ n ∈ writeSampleTimes (muxTrafs minT maxT ts st).1,
        (n : Int) + (minT : Int) < (maxT : Int) := by
  intro ts
  induction ts with
  | nil =>
    intro st n hn
    simp [muxTrafs, writeSampleTimes] at hn
  | cons t rest ih =>
    intro st n hn
    by_cases h : maxT ≤ t.baseMediaDecodeTimeV1
    · simp [muxTrafs, h, writeSampleTimes] at hn
    · simp only [muxTrafs, if_neg h, writeSampleTimes] at hn
      rw [writeSampleTimes_append] at hn
      rcases List.mem_append.mp hn with hn | hn
      · exact muxTrunEntries_times_lt minT maxT t.entries t.baseMediaDecodeTimeV1 n hn
      · exact ih _ n hn

theorem muxBoxes_times_lt (minT maxT : Nat) :
    ∀ (seg : List SegBox) (st : SeekState),
      ∀ n ∈ writeSampleTimes (muxBoxes minT maxT seg st).1,
        (n : Int) + (minT : Int) < (maxT : Int) := by
  intro seg
  induction seg with
  | nil =>
    intro st n hn
    simp [muxBoxes, writeSampleTimes] at hn
  | cons b rest ih =>
    intro st n hn
    cases b with
    | moof off trafs =>
      simp only [muxBoxes] at hn
      by_cases h : (muxTrafs minT maxT trafs st).2.2 = true
      · rw [if_pos h] at hn
        exact muxTrafs_times_lt minT maxT trafs st n hn
      · rw [if_neg h] at hn
        rw [writeSampleTimes_append] at hn
        rcases List.mem_append.mp hn with hn | hn
        · exact muxTrafs_times_lt minT maxT trafs st n hn
        · exact ih _ n hn
    | mdat =>
      simp only [muxBoxes, writeSampleTimes] at hn
      exact ih st n hn

theorem seekAndMuxParts_trace_eq (seg : List SegBox) (minTime maxTime : Nat) :
    (segmentFMP4SeekAndMuxParts seg minTime maxTime).1 =
      (muxBoxes (durationGoToMp4 minTime fmp4Timescale)
        (durationGoToMp4 maxTime fmp4Timescale) seg (SeekState.mk 0 false)).1 := by
  simp only [segmentFMP4SeekAndMuxParts]
  split <;> rfl

/-- C1 counterexample: the claim says no sample with media time below
minTime is ever delivered to the muxer and every writeSample call has a
normalized timestamp >= 0.  On the well-formed segment `segOneSample`
(one moof, one traf at decode time 0, one one-second sample, one mdat),
with minTime = 1 s and maxTime = 2 s, the code delivers the sample that
lies entirely below minTime, with the negative normalized timestamp
-90000. -/
theorem seekAndMux_delivers_sample_below_minTime :
    MuxerCall.writeSample (-90000) 90000 0 false [7] ∈
        (segmentFMP4SeekAndMuxParts segOneSample 1000000000 2000000000).1 ∧
      (-90000 : Int) < 0 := by
  constructor
  · decide
  · decide

/-- C1 (amended): segmentFMP4SeekAndMuxParts delivers every sample whose
media time lies strictly before maxTime, including the ones below minTime
(those arrive with negative normalized timestamps); each writeSample call
has normalized timestamp n with n + minTimeMP4 < maxTimeMP4, so a sample
whose elapsed time equals maxTime is excluded. -/
theorem seekAndMux_samples_strictly_before_maxTime :
    ∀ (seg : List SegBox) (minTime maxTime : Nat),
      ∀ n ∈ writeSampleTimes (segmentFMP4SeekAndMuxParts seg minTime maxTime).1,
        (n : Int) + (durationGoToMp4 minTime fmp4Timescale : Int) <
          (durationGoToMp4 maxTime fmp4Timescale : Int) := by
  intro seg minTime maxTime n hn
  rw [seekAndMuxParts_trace_eq] at hn
  exact muxBoxes_times_lt _ _ seg _ n hn

/-- Witness for the amended C1 theorem at segOneSample with
minTime = 0 and maxTime = 2 s, at the emitted timestamp 0. -/
theorem seekAndMux_samples_strictly_before_maxTime_witness :
    (0 : Int) + (durationGoToMp4 0 fmp4Timescale : Int) <
      (durationGoToMp4 2000000000 fmp4Timescale : Int) :=
  seekAndMux_samples_strictly_before_maxTime segOneSample 0 2000000000 0 (by decide)

theorem muxTrunEntries_flag_iff (minT maxT : Nat) :
    ∀ (es : List TrunEntry) (elapsed : Nat),
      ((muxTrunEntries minT maxT elapsed es).2.2 = true ↔
        ∃ n ∈ writeSampleTimes (muxTrunEntries minT maxT elapsed es).1, 0 ≤ n) := by
  intro es
  induction es with
  | nil =>
    intro elapsed
    simp [muxTrunEntries, writeSampleTimes]
  | cons e rest ih =>
    intro elapsed
    by_cases h : maxT ≤ elapsed
    · simp [muxTrunEntries, h, writeSampleTimes]
    · simp only [muxTrunEntries, if_neg h, writeSampleTimes, Bool.or_eq_true,
        decide_eq_true_eq, List.mem_cons]
      constructor
      · rintro (h0 | hrec)
        · exact ⟨(elapsed : Int) - (minT : Int), Or.inl rfl, h0⟩
        · obtain ⟨n, hn, h0⟩ := (ih (elapsed + e.sampleDuration)).mp hrec
          exact ⟨n, Or.inr hn, h0⟩
      · rintro ⟨n, hn, h0⟩
        rcases hn with rfl | hn
        · exact Or.inl h0
        · exact Or.inr ((ih (elapsed + e.sampleDuration)).mpr ⟨n, hn, h0⟩)

theorem muxTrafs_flag_iff (minT maxT : Nat) :
    ∀ (ts : List Traf) (st : SeekState),
      ((muxTrafs minT maxT ts st).2.1.atLeastOnePartWritten = true ↔
        (st.atLeastOnePartWritten = true ∨
          ∃ n ∈ writeSampleTimes (muxTrafs minT maxT ts st).1, 0 ≤ n)) := by
  intro ts
  induction ts with
  | nil =>
    intro st
    simp [muxTrafs, writeSampleTimes]
  | cons t rest ih =>
    intro st
    by_cases h : maxT ≤ t.baseMediaDecodeTimeV1
    · simp [muxTrafs, h, writeSampleTimes]
    · simp only [muxTrafs, if_neg h, writeSampleTimes]
      rw [ih, writeSampleTimes_append]
      simp only [Bool.or_eq_true, List.mem_append]
      rw [muxTrunEntries_flag_iff]
      constructor
      · rintro (((hst | htr) | hrest))
        · exact Or.inl hst
        · obtain ⟨n, hn, h0⟩ := htr
          exact Or.inr ⟨n, Or.inl hn, h0⟩
        · obtain ⟨n, hn, h0⟩ := hrest
          exact Or.inr ⟨n, Or.inr hn, h0⟩
      · rintro (hst | ⟨n, hn, h0⟩)
        · exact Or.inl (Or.inl hst)
        · rcases hn with hn | hn
          · exact Or.inl (Or.inr ⟨n, hn, h0⟩)
          · exact Or.inr ⟨n, hn, h0⟩

theorem muxBoxes_flag_iff (minT maxT : Nat) :
    ∀ (seg : List SegBox) (st : SeekState),
      ((muxBoxes minT maxT seg st).2.1.atLeastOnePartWritten = true ↔
        (st.atLeastOnePartWritten = true ∨
          ∃ n ∈ writeSampleTimes (muxBoxes minT maxT seg st).1, 0 ≤ n)) := by
  intro seg
  induction seg with
  | nil =>
    intro st
    simp [muxBoxes, writeSampleTimes]
  | cons b rest ih =>
    intro st
    cases b with
    | moof off trafs =>
      simp only [muxBoxes]
      by_cases h : (muxTrafs minT maxT trafs st).2.2 = true
      · rw [if_pos h]
        exact muxTrafs_flag_iff minT maxT trafs st
      · rw [if_neg h]
        simp only []
        rw [ih, writeSampleTimes_append]
        rw [muxTrafs_flag_iff]
        simp only [List.mem_append]
        constructor
        · rintro ((hst | ⟨n, hn, h0⟩) | ⟨n, hn, h0⟩)
          · exact Or.inl hst
          · exact Or.inr ⟨n, Or.inl hn, h0⟩
          · exact Or.inr ⟨n, Or.inr hn, h0⟩
        · rintro (hst | ⟨n, hn, h0⟩)
          · exact Or.inl (Or.inl hst)
          · rcases hn with hn | hn
            · exact Or.inl (Or.inr ⟨n, hn, h0⟩)
            · exact Or.inr ⟨n, hn, h0⟩
    | mdat =>
      simp only [muxBoxes, writeSampleTimes]
      exact ih st

/-- C7: segmentFMP4SeekAndMuxParts fails with errNoSegmentsFound exactly
when no sample was emitted with normalized time >= 0; and for a segment
whose first tfdt decode time is already >= maxTime, the walk is aborted
before anything reaches the muxer: the call trace is empty (in particular
no flush, i.e. no mdat is ever processed) and the result is
errNoSegmentsFound. -/
theorem seekAndMux_noSegments_iff :
    ∀ (seg : List SegBox) (minTime maxTime : Nat),
      ((segmentFMP4SeekAndMuxParts seg minTime maxTime).2 =
          Except.error SegError.noSegmentsFound ↔
        ∀ n ∈ writeSampleTimes (segmentFMP4SeekAndMuxParts seg minTime maxTime).1,
          n < 0) ∧
      (∀ (off : Nat) (t : Traf) (ts : List Traf) (rest : List SegBox),
        seg = SegBox.moof off (t :: ts) :: rest →
        durationGoToMp4 maxTime fmp4Timescale ≤ t.baseMediaDecodeTimeV1 →
        (segmentFMP4SeekAndMuxParts seg minTime maxTime).1 = [] ∧
        MuxerCall.flush ∉ (segmentFMP4SeekAndMuxParts seg minTime maxTime).1 ∧
        (segmentFMP4SeekAndMuxParts seg minTime maxTime).2 =
          Except.error SegError.noSegmentsFound) := by
  intro seg minTime maxTime
  have hflag := muxBoxes_flag_iff (durationGoToMp4 minTime fmp4Timescale)
    (durationGoToMp4 maxTime fmp4Timescale) seg (SeekState.mk 0 false)
  have htrace := seekAndMuxParts_trace_eq seg minTime maxTime
  constructor
  · by_cases hb : (muxBoxes (durationGoToMp4 minTime fmp4Timescale)
        (durationGoToMp4 maxTime fmp4Timescale) seg
        (SeekState.mk 0 false)).2.1.atLeastOnePartWritten = false
    · have h2 : (segmentFMP4SeekAndMuxParts seg minTime maxTime).2 =
          Except.error SegError.noSegmentsFound := by
        simp only [segmentFMP4SeekAndMuxParts]
        rw [if_pos hb]
      constructor
      · intro _ n hn
        rw [htrace] at hn
        by_contra h0
        push_neg at h0
        have hbt : (muxBoxes (durationGoToMp4 minTime fmp4Timescale)
            (durationGoToMp4 maxTime fmp4Timescale) seg
            (SeekState.mk 0 false)).2.1.atLeastOnePartWritten = true :=
          hflag.mpr (Or.inr ⟨n, hn, h0⟩)
        rw [hbt] at hb
        exact Bool.noConfusion hb
      · intro _
        exact h2
    · have hbt : (muxBoxes (durationGoToMp4 minTime fmp4Timescale)
          (durationGoToMp4 maxTime fmp4Timescale) seg
          (SeekState.mk 0 false)).2.1.atLeastOnePartWritten = true := by
        revert hb
        cases (muxBoxes (durationGoToMp4 minTime fmp4Timescale)
          (durationGoToMp4 maxTime fmp4Timescale) seg
          (SeekState.mk 0 false)).2.1.atLeastOnePartWritten
        · intro hb; exact absurd rfl hb
        · intro _; rfl
      have h2 : (segmentFMP4SeekAndMuxParts seg minTime maxTime).2 =
          Except.ok (durationMp4ToGo (sub64 (muxBoxes
            (durationGoToMp4 minTime fmp4Timescale)
            (durationGoToMp4 maxTime fmp4Timescale) seg
            (SeekState.mk 0 false)).2.1.maxElapsed
            (durationGoToMp4 minTime fmp4Timescale)) fmp4Timescale) := by
        simp only [segmentFMP4SeekAndMuxParts]
        rw [if_neg hb]
      constructor
      · intro herr
        rw [h2] at herr
        exact Except.noConfusion herr
      · intro hall
        obtain ⟨n, hn, h0⟩ := (hflag.mp hbt).resolve_left (by simp)
        rw [← htrace] at hn
        have hlt := hall n hn
        omega
  · intro off t ts rest hseg hbase
    subst hseg
    have htr : muxTrafs (durationGoToMp4 minTime fmp4Timescale)
        (durationGoToMp4 maxTime fmp4Timescale) (t :: ts) (SeekState.mk 0 false) =
        ([], SeekState.mk 0 false, true) := by
      simp [muxTrafs, hbase]
    have hbx : muxBoxes (durationGoToMp4 minTime fmp4Timescale)
        (durationGoToMp4 maxTime fmp4Timescale)
        (SegBox.moof off (t :: ts) :: rest) (SeekState.mk 0 false) =
        ([], SeekState.mk 0 false, true) := by
      simp only [muxBoxes, htr]
      rfl
    have htr2 := seekAndMuxParts_trace_eq (SegBox.moof off (t :: ts) :: rest)
      minTime maxTime
    rw [hbx] at htr2
    refine ⟨htr2, by simp [htr2], ?_⟩
    simp [segmentFMP4SeekAndMuxParts, hbx]

/-- Witness for C7 at segOneSample with maxTime = 0: the first decode time
0 is >= maxTimeMP4 = 0, so the trace is empty and the call fails with
errNoSegmentsFound. -/
theorem seekAndMux_noSegments_iff_witness :
    (segmentFMP4SeekAndMuxParts segOneSample 0 0).1 = [] ∧
      MuxerCall.flush ∉ (segmentFMP4SeekAndMuxParts segOneSample 0 0).1 ∧
      (segmentFMP4SeekAndMuxParts segOneSample 0 0).2 =
        Except.error SegError.noSegmentsFound :=
  (seekAndMux_noSegments_iff segOneSample 0 0).2 0
    (Traf.mk 1 0 8 [TrunEntry.mk 90000 1 0 0 [7]]) [] [SegBox.mdat] rfl (by decide)

theorem writeTrunEntries_times_characterization (startT maxT : Nat) :
    ∀ (es : List TrunEntry) (elapsed : Nat),
      writeSampleTimes (writeTrunEntries startT maxT elapsed es).1 =
        ((elapsedTimes elapsed es).takeWhile (fun x => decide (x < maxT))).map
          (fun x => (x : Int) + (startT : Int)) := by
  intro es
  induction es with
  | nil => intro elapsed; rfl
  | cons e rest ih =>
    intro elapsed
    by_cases h : maxT ≤ elapsed
    · have hx : decide (elapsed < maxT) = false := by
        simp only [decide_eq_false_iff_not, not_lt]
        exact h
      simp [writeTrunEntries, h, elapsedTimes, writeSampleTimes,
        List.takeWhile_cons, hx]
    · have hx : decide (elapsed < maxT) = true := by
        simp only [decide_eq_true_eq]
        omega
      simp [writeTrunEntries, h, elapsedTimes, writeSampleTimes,
        List.takeWhile_cons, hx, ih]

theorem writeTrunEntries_times_ge (startT maxT : Nat) :
    ∀ (es : List TrunEntry) (elapsed : Nat),
      ∀ n ∈ writeSampleTimes (writeTrunEntries startT maxT elapsed es).1,
        (startT : Int) ≤ n := by
  intro es
  induction es with
  | nil =>
    intro elapsed n hn
    simp [writeTrunEntries, writeSampleTimes] at hn
  | cons e rest ih =>
    intro elapsed n hn
    by_cases h : maxT ≤ elapsed
    · simp [writeTrunEntries, h, writeSampleTimes] at hn
    · simp only [writeTrunEntries, if_neg h, writeSampleTimes, List.mem_cons] at hn
      rcases hn with rfl | hn
      · omega
      · exact ih (elapsed + e.sampleDuration) n hn

theorem writeTrafs_times_ge (startT maxT : Nat) :
    ∀ (ts : List Traf) (m : Nat),
      ∀ n ∈ writeSampleTimes (writeTrafs startT maxT ts m).1,
        (startT : Int) ≤ n := by
  intro ts
  induction ts with
  | nil =>
    intro m n hn
    simp [writeTrafs, writeSampleTimes] at hn
  | cons t rest ih =>
    intro m n hn
    by_cases h : maxT ≤ t.baseMediaDecodeTimeV1
    · simp [writeTrafs, h, writeSampleTimes] at hn
    · simp only [writeTrafs, if_neg h, writeSampleTimes] at hn
      rw [writeSampleTimes_append] at hn
      rcases List.mem_append.mp hn with hn | hn
      · exact writeTrunEntries_times_ge startT maxT t.entries t.baseMediaDecodeTimeV1 n hn
      · exact ih _ n hn

theorem writeBoxes_times_ge (startT maxT : Nat) :
    ∀ (seg : List SegBox) (m : Nat),
      ∀ n ∈ writeSampleTimes (writeBoxes startT maxT seg m).1,
        (startT : Int) ≤ n := by
  intro seg
  induction seg with
  | nil =>
    intro m n hn
    simp [writeBoxes, writeSampleTimes] at hn
  | cons b rest ih =>
    intro m n hn
    cases b with
    | moof off trafs =>
      simp only [writeBoxes] at hn
      by_cases h : (writeTrafs startT maxT trafs m).2.2 = true
      · rw [if_pos h] at hn
        exact writeTrafs_times_ge startT maxT trafs m n hn
      · rw [if_neg h] at hn
        rw [writeSampleTimes_append] at hn
        rcases List.mem_append.mp hn with hn | hn
        · exact writeTrafs_times_ge startT maxT trafs m n hn
        · exact ih _ n hn
    | mdat =>
      simp only [writeBoxes, writeSampleTimes] at hn
      exact ih m n hn

/-- C8: segmentFMP4WriteParts skips nothing: per trun, the writeSample
timestamps are exactly the media times of all leading samples strictly
before maxTime, each shifted by startTime in 90000-tick units
(elapsed + durationGoToMp4 startTime); globally no emitted timestamp is
below the startTime offset; and concretely, with startTime = 10 s, the
first sample of a segment starting at media time 0 is emitted at
900000 ticks. -/
theorem writeParts_timestamps :
    (∀ (startT maxT : Nat) (es : List TrunEntry) (elapsed : Nat),
      writeSampleTimes (writeTrunEntries startT maxT elapsed es).1 =
        ((elapsedTimes elapsed es).takeWhile (fun x => decide (x < maxT))).map
          (fun x => (x : Int) + (startT : Int))) ∧
    (∀ (seg : List SegBox) (startTime maxTime : Nat),
      ∀ n ∈ writeSampleTimes (segmentFMP4WriteParts seg startTime maxTime).1,
        ((durationGoToMp4 startTime fmp4Timescale : Nat) : Int) ≤ n) ∧
    writeSampleTimes (segmentFMP4WriteParts segOneSample 10000000000 100000000000).1 =
      [(900000 : Int)] := by
  refine ⟨?_, ?_, ?_⟩
  · intro startT maxT es elapsed
    exact writeTrunEntries_times_characterization startT maxT es elapsed
  · intro seg startTime maxTime n hn
    have htr : (segmentFMP4WriteParts seg startTime maxTime).1 =
        (writeBoxes (durationGoToMp4 startTime fmp4Timescale)
          (durationGoToMp4 maxTime fmp4Timescale) seg 0).1 := rfl
    rw [htr] at hn
    exact writeBoxes_times_ge _ _ seg 0 n hn
  · decide

/-- Witness for C8 at segOneSample with startTime = 10 s,
maxTime = 100 s, at the emitted timestamp 900000. -/
theorem writeParts_timestamps_witness :
    ((durationGoToMp4 10000000000 fmp4Timescale : Nat) : Int) ≤ 900000 :=
  writeParts_timestamps.2.1 segOneSample 10000000000 100000000000 900000 (by decide)

theorem muxTrunEntries_elapsed_bounds (minT maxT : Nat) :
    ∀ (es : List TrunEntry) (elapsed : Nat),
      elapsed ≤ (muxTrunEntries minT maxT elapsed es).2.1 ∧
      (muxTrunEntries minT maxT elapsed es).2.1 ≤
        elapsed + (es.map (fun e => e.sampleDuration)).sum ∧
      ((muxTrunEntries minT maxT elapsed es).2.2 = true →
        minT ≤ (muxTrunEntries minT maxT elapsed es).2.1) := by
  intro es
  induction es with
  | nil =>
    intro elapsed
    refine ⟨?_, ?_, ?_⟩ <;> simp [muxTrunEntries]
  | cons e rest ih =>
    intro elapsed
    by_cases h : maxT ≤ elapsed
    · refine ⟨?_, ?_, ?_⟩ <;> simp [muxTrunEntries, h]
    · have ihx := ih (elapsed + e.sampleDuration)
      simp only [muxTrunEntries, if_neg h, List.map_cons, List.sum_cons]
      refine ⟨?_, ?_, ?_⟩
      · have h1 := ihx.1
        omega
      · have h2 := ihx.2.1
        omega
      · intro hflag
        simp only [Bool.or_eq_true, decide_eq_true_eq] at hflag
        rcases hflag with h0 | hrec
        · have h1 := ihx.1
          omega
        · exact ihx.2.2 hrec

theorem muxTrafs_state_bounds (minT maxT : Nat) :
    ∀ (ts : List Traf) (st : SeekState),
      (∀ t ∈ ts, trafBounded t = true) →
      (st.atLeastOnePartWritten = true → minT ≤ st.maxElapsed) →
      st.maxElapsed < 2 ^ 63 →
      (((muxTrafs minT maxT ts st).2.1.atLeastOnePartWritten = true →
          minT ≤ (muxTrafs minT maxT ts st).2.1.maxElapsed) ∧
        (muxTrafs minT maxT ts st).2.1.maxElapsed < 2 ^ 63) := by
  intro ts
  induction ts with
  | nil =>
    intro st hb hinv hlt
    simpa [muxTrafs] using ⟨hinv, hlt⟩
  | cons t rest ih =>
    intro st hb hinv hlt
    by_cases h : maxT ≤ t.baseMediaDecodeTimeV1
    · simpa [muxTrafs, h] using ⟨hinv, hlt⟩
    · simp only [muxTrafs, if_neg h]
      have hbt : trafBounded t = true := hb t (List.mem_cons_self t rest)
      have hbrest : ∀ t2 ∈ rest, trafBounded t2 = true :=
        fun t2 ht2 => hb t2 (List.mem_cons_of_mem t ht2)
      have htrun := muxTrunEntries_elapsed_bounds minT maxT t.entries
        t.baseMediaDecodeTimeV1
      have hsum : t.baseMediaDecodeTimeV1 +
          (t.entries.map (fun e => e.sampleDuration)).sum < 2 ^ 63 := by
        simpa [trafBounded] using hbt
      apply ih
      · exact hbrest
      · intro hflag
        simp only [Bool.or_eq_true] at hflag
        rcases hflag with h1 | h2
        · exact le_trans (hinv h1) (le_max_left _ _)
        · exact le_trans (htrun.2.2 h2) (le_max_right _ _)
      · have h2 := htrun.2.1
        exact max_lt hlt (by omega)

theorem muxBoxes_state_bounds (minT maxT : Nat) :
    ∀ (seg : List SegBox) (st : SeekState),
      segBounded seg = true →
      (st.atLeastOnePartWritten = true → minT ≤ st.maxElapsed) →
      st.maxElapsed < 2 ^ 63 →
      (((muxBoxes minT maxT seg st).2.1.atLeastOnePartWritten = true →
          minT ≤ (muxBoxes minT maxT seg st).2.1.maxElapsed) ∧
        (muxBoxes minT maxT seg st).2.1.maxElapsed < 2 ^ 63) := by
  intro seg
  induction seg with
  | nil =>
    intro st hb hinv hlt
    simpa [muxBoxes] using ⟨hinv, hlt⟩
  | cons b rest ih =>
    intro st hb hinv hlt
    have hbb : boxBounded b = true ∧ segBounded rest = true := by
      simpa [segBounded, List.all_cons, Bool.and_eq_true] using hb
    cases b with
    | moof off trafs =>
      have htraf := muxTrafs_state_bounds minT maxT trafs st (by
        intro t ht
        have hx := hbb.1
        simp only [boxBounded, List.all_eq_true] at hx
        exact hx t ht) hinv hlt
      simp only [muxBoxes]
      by_cases h : (muxTrafs minT maxT trafs st).2.2 = true
      · rw [if_pos h]
        exact htraf
      · rw [if_neg h]
        exact ih _ hbb.2 htraf.1 htraf.2
    | mdat =>
      simp only [muxBoxes]
      exact ih st hbb.2 hinv hlt

/-- C10: whenever segmentFMP4SeekAndMuxParts succeeds on a bounded segment
(at least one sample was emitted with normalized time >= 0), the final
maxElapsed is at least the 90000-tick conversion of minTime, so the uint64
subtraction maxElapsed -= minTimeMP4 (line 414) does not wrap and the
returned duration is durationMp4ToGo of the non-negative difference. -/
theorem seekAndMux_success_no_underflow :
    ∀ (seg : List SegBox) (minTime maxTime d : Nat),
      segBounded seg = true →
      (segmentFMP4SeekAndMuxParts seg minTime maxTime).2 = Except.ok d →
      (durationGoToMp4 minTime fmp4Timescale ≤
          (muxBoxes (durationGoToMp4 minTime fmp4Timescale)
            (durationGoToMp4 maxTime fmp4Timescale) seg
            (SeekState.mk 0 false)).2.1.maxElapsed ∧
        sub64 ((muxBoxes (durationGoToMp4 minTime fmp4Timescale)
            (durationGoToMp4 maxTime fmp4Timescale) seg
            (SeekState.mk 0 false)).2.1.maxElapsed)
            (durationGoToMp4 minTime fmp4Timescale) =
          (muxBoxes (durationGoToMp4 minTime fmp4Timescale)
            (durationGoToMp4 maxTime fmp4Timescale) seg
            (SeekState.mk 0 false)).2.1.maxElapsed -
            durationGoToMp4 minTime fmp4Timescale ∧
        d = durationMp4ToGo ((muxBoxes (durationGoToMp4 minTime fmp4Timescale)
            (durationGoToMp4 maxTime fmp4Timescale) seg
            (SeekState.mk 0 false)).2.1.maxElapsed -
            durationGoToMp4 minTime fmp4Timescale) fmp4Timescale) := by
  intro seg minTime maxTime d hbound hok
  by_cases hb : (muxBoxes (durationGoToMp4 minTime fmp4Timescale)
      (durationGoToMp4 maxTime fmp4Timescale) seg
      (SeekState.mk 0 false)).2.1.atLeastOnePartWritten = false
  · exfalso
    have h2 : (segmentFMP4SeekAndMuxParts seg minTime maxTime).2 =
        Except.error SegError.noSegmentsFound := by
      simp only [segmentFMP4SeekAndMuxParts]
      rw [if_pos hb]
    rw [h2] at hok
    exact Except.noConfusion hok
  · have hbt : (muxBoxes (durationGoToMp4 minTime fmp4Timescale)
        (durationGoToMp4 maxTime fmp4Timescale) seg
        (SeekState.mk 0 false)).2.1.atLeastOnePartWritten = true := by
      revert hb
      cases (muxBoxes (durationGoToMp4 minTime fmp4Timescale)
        (durationGoToMp4 maxTime fmp4Timescale) seg
        (SeekState.mk 0 false)).2.1.atLeastOnePartWritten
      · intro hb; exact absurd rfl hb
      · intro _; rfl
    have hst := muxBoxes_state_bounds (durationGoToMp4 minTime fmp4Timescale)
      (durationGoToMp4 maxTime fmp4Timescale) seg (SeekState.mk 0 false) hbound
      (by intro hx; simp at hx) (by norm_num)
    have hge := hst.1 hbt
    have hlt := hst.2
    have hsub : sub64 ((muxBoxes (durationGoToMp4 minTime fmp4Timescale)
        (durationGoToMp4 maxTime fmp4Timescale) seg
        (SeekState.mk 0 false)).2.1.maxElapsed)
        (durationGoToMp4 minTime fmp4Timescale) =
        (muxBoxes (durationGoToMp4 minTime fmp4Timescale)
          (durationGoToMp4 maxTime fmp4Timescale) seg
          (SeekState.mk 0 false)).2.1.maxElapsed -
          durationGoToMp4 minTime fmp4Timescale := by
      unfold sub64
      omega
    have h2 : (segmentFMP4SeekAndMuxParts seg minTime maxTime).2 =
        Except.ok (durationMp4ToGo (sub64 ((muxBoxes
          (durationGoToMp4 minTime fmp4Timescale)
          (durationGoToMp4 maxTime fmp4Timescale) seg
          (SeekState.mk 0 false)).2.1.maxElapsed)
          (durationGoToMp4 minTime fmp4Timescale)) fmp4Timescale) := by
      simp only [segmentFMP4SeekAndMuxParts]
      rw [if_neg hb]
    rw [h2] at hok
    injection hok with hok
    refine ⟨hge, hsub, ?_⟩
    rw [← hok, hsub]

/-- Witness for C10 at segOneSample, minTime = 0, maxTime = 2 s,
where the call succeeds with duration 1 s. -/
theorem seekAndMux_success_no_underflow_witness :
    durationGoToMp4 0 fmp4Timescale ≤
      (muxBoxes (durationGoToMp4 0 fmp4Timescale)
        (durationGoToMp4 2000000000 fmp4Timescale) segOneSample
        (SeekState.mk 0 false)).2.1.maxElapsed :=
  (seekAndMux_success_no_underflow segOneSample 0 2000000000 1000000000
    (by decide) (by rfl)).1

theorem scanPairs_error_is_tag_error :
    ∀ (fuel : Nat) (r : ByteReader) (last : Option Nat) (e : MP4Err),
      scanPairs fuel r last = Except.error e →
      e = MP4Err.moofNotFound ∨ e = MP4Err.mdatNotFound := by
  intro fuel
  induction fuel with
  | zero =>
    intro r last e h
    exact Except.noConfusion h
  | succ k ih =>
    intro r last e h
    simp only [scanPairs] at h
    split at h
    · exact Except.noConfusion h
    · split at h
      · injection h with h2
        exact Or.inl h2.symm
      · split at h
        · exact Except.noConfusion h
        · split at h
          · exact Except.noConfusion h
          · split at h
            · injection h with h2
              exact Or.inr h2.symm
            · split at h
              · exact Except.noConfusion h
              · exact ih _ _ e h

theorem scanPairs_stops_on_short_read :
    ∀ (fuel : Nat) (r : ByteReader) (last : Option Nat),
      readFull r 8 = none → scanPairs (fuel + 1) r last = Except.ok last := by
  intro fuel r last h
  simp only [scanPairs, h]

theorem readMaxDuration_of_empty_scan :
    ∀ (r r' : ByteReader), segmentFMP4AfterMoov r = Except.ok r' →
      scanPairs (r'.fileData.length + 1) r' none = Except.ok none →
      segmentFMP4ReadMaxDuration r = Except.error MP4Err.noMoofBoxes := by
  intro r r' h1 h2
  simp only [segmentFMP4ReadMaxDuration, h1, h2]

/-- C6: the error policy of segmentFMP4ReadMaxDuration.  (1) If the
scan past moov records no complete moof/mdat pair (ending at the file end
without a tag violation), the call fails with the no-moof-boxes error;
(2) in particular whenever fewer than 8 bytes remain after moov;
(3) a box-tag violation during the scan is returned as the corresponding
malformed-segment error, and the only errors the scan itself can raise are
the moof/mdat tag violations; (4) the scan never raises an IO error;
(5) a short read during the scan ends it normally, keeping the last
complete pair, exactly as if the file ended there. -/
theorem readMaxDuration_error_policy :
    (∀ (r r' : ByteReader), segmentFMP4AfterMoov r = Except.ok r' →
      scanPairs (r'.fileData.length + 1) r' none = Except.ok none →
      segmentFMP4ReadMaxDuration r = Except.error MP4Err.noMoofBoxes) ∧
    (∀ (r r' : ByteReader), segmentFMP4AfterMoov r = Except.ok r' →
      r'.fileData.length < r'.pos + 8 →
      segmentFMP4ReadMaxDuration r = Except.error MP4Err.noMoofBoxes) ∧
    (∀ (r r' : ByteReader) (e : MP4Err), segmentFMP4AfterMoov r = Except.ok r' →
      scanPairs (r'.fileData.length + 1) r' none = Except.error e →
      (segmentFMP4ReadMaxDuration r = Except.error e ∧
        (e = MP4Err.moofNotFound ∨ e = MP4Err.mdatNotFound))) ∧
    (∀ (fuel : Nat) (r : ByteReader) (last : Option Nat),
      scanPairs fuel r last ≠ Except.error MP4Err.ioError) ∧
    (∀ (fuel : Nat) (r : ByteReader) (last : Option Nat),
      readFull r 8 = none → scanPairs (fuel + 1) r last = Except.ok last) := by
  refine ⟨readMaxDuration_of_empty_scan, ?_, ?_, ?_, scanPairs_stops_on_short_read⟩
  · intro r r' h1 hlen
    apply readMaxDuration_of_empty_scan r r' h1
    have hrf : readFull r' 8 = none := by
      simp only [readFull]
      rw [if_neg (by omega)]
    exact scanPairs_stops_on_short_read _ r' none hrf
  · intro r r' e h1 h2
    constructor
    · simp only [segmentFMP4ReadMaxDuration, h1, h2]
    · exact scanPairs_error_is_tag_error _ r' none e h2
  · intro fuel r last h
    rcases scanPairs_error_is_tag_error fuel r last MP4Err.ioError h with h2 | h2 <;>
      exact MP4Err.noConfusion h2

/-- Witness for C6 at the concrete file segNoPairs (valid ftyp and moov,
then three trailing bytes): the call fails with the no-moof-boxes error. -/
theorem readMaxDuration_error_policy_witness :
    segmentFMP4ReadMaxDuration (ByteReader.mk segNoPairs 0) =
      Except.error MP4Err.noMoofBoxes :=
  readMaxDuration_error_policy.2.1 (ByteReader.mk segNoPairs 0)
    (ByteReader.mk segNoPairs 16) (by rfl) (by decide)

theorem readyOkCount_append (a b : List WAction) :
    readyOkCount (a ++ b) = readyOkCount a + readyOkCount b := by
  simp [readyOkCount, List.filter_append]

theorem notReadyCount_append (a b : List WAction) :
    notReadyCount (a ++ b) = notReadyCount a + notReadyCount b := by
  simp [notReadyCount, List.filter_append]

theorem readyLogCount_append (a b : List WAction) :
    readyLogCount (a ++ b) = readyLogCount a + readyLogCount b := by
  simp [readyLogCount, List.filter_append]

theorem runInner_counts (env : InnerEnv) :
    readyOkCount (rtspSourceRunInner env).1 =
        notReadyCount (rtspSourceRunInner env).1 ∧
      readyLogCount (rtspSourceRunInner env).1 =
        readyOkCount (rtspSourceRunInner env).1 := by
  obtain ⟨p, s, o, d, su, ra, pl, sc, cc⟩ := env
  cases p <;> cases s <;> cases o <;> cases d <;> cases su <;> cases ra <;>
    cases pl <;> cases sc <;> cases cc <;> decide

theorem run_counts_balanced :
    ∀ (envs : List InnerEnv),
      readyOkCount (rtspSourceRun envs).1 =
          notReadyCount (rtspSourceRun envs).1 ∧
        readyLogCount (rtspSourceRun envs).1 =
          readyOkCount (rtspSourceRun envs).1 := by
  intro envs
  induction envs with
  | nil => exact ⟨rfl, rfl⟩
  | cons env rest ih =>
    have hinner := runInner_counts env
    simp only [rtspSourceRun]
    split
    · exact hinner
    · have e1 : readyOkCount [WAction.ctxCancel, WAction.wgDone] = 0 := rfl
      have e2 : notReadyCount [WAction.ctxCancel, WAction.wgDone] = 0 := rfl
      have e3 : readyLogCount [WAction.ctxCancel, WAction.wgDone] = 0 := rfl
      rw [readyOkCount_append, notReadyCount_append, readyLogCount_append,
        e1, e2, e3]
      omega
    · split
      · have e1 : readyOkCount [WAction.ctxCancel, WAction.wgDone] = 0 := rfl
        have e2 : notReadyCount [WAction.ctxCancel, WAction.wgDone] = 0 := rfl
        have e3 : readyLogCount [WAction.ctxCancel, WAction.wgDone] = 0 := rfl
        rw [readyOkCount_append, notReadyCount_append, readyLogCount_append,
          e1, e2, e3]
        omega
      · have hc : WAction.cooldownWait :: (rtspSourceRun rest).1 =
            [WAction.cooldownWait] ++ (rtspSourceRun rest).1 := rfl
        rw [readyOkCount_append, notReadyCount_append, readyLogCount_append,
          hc, readyOkCount_append, notReadyCount_append, readyLogCount_append]
        have e1 : readyOkCount [WAction.cooldownWait] = 0 := rfl
        have e2 : notReadyCount [WAction.cooldownWait] = 0 := rfl
        have e3 : readyLogCount [WAction.cooldownWait] = 0 := rfl
        rw [e1, e2, e3]
        have h1 := ih.1
        have h2 := ih.2
        omega

/-- C2: contrary to the claim (and to the treatment of every other
protocol step, which is logged at INFO level and retried after the
5-second pause), a failing SETUP request makes the session goroutine call
panic(err) (rtsp_source.go line 182): in the environment where OPTIONS
and DESCRIBE succeed and a track's SETUP fails, the attempt ends in the
panic outcome, the run crashes with it, and no INFO error log, no
cooldown pause and no WaitGroup release ever happen. -/
theorem setup_failure_panics :
    (rtspSourceRunInner setupFailEnv).2 = InnerOutcome.panicked ∧
      (rtspSourceRun [setupFailEnv]).2 = RunOutcome.panicked ∧
      WAction.logInfo LogMsg.errMsg ∉ (rtspSourceRun [setupFailEnv]).1 ∧
      WAction.cooldownWait ∉ (rtspSourceRun [setupFailEnv]).1 ∧
      WAction.wgDone ∉ (rtspSourceRun [setupFailEnv]).1 := by
  decide

/-- C3 counterexample: close() does not wait for anything.  Its effect
trace is exactly [logInfo stopped, ctxCancel]: it contains no WaitGroup
join and no not-ready transition, refuting the claim that close() returns
only after the task group has joined and the worker has left the ready
state.  Quiescence happens asynchronously in the run goroutine. -/
theorem close_does_not_join :
    rtspSourceClose = [WAction.logInfo LogMsg.stopped, WAction.ctxCancel] ∧
      WAction.wgWait ∉ rtspSourceClose ∧
      WAction.wgDone ∉ rtspSourceClose ∧
      WAction.notReadyReq ∉ rtspSourceClose := by
  decide

/-- C3 (amended): close() signals cancellation (it cancels the context)
and returns immediately, performing no join; the quiescence the claim
attributes to close() happens asynchronously in the worker: every run
that stops does so with the WaitGroup release as its final action, and
every transition into ready is matched by a not-ready call within the
run's trace. -/
theorem close_cancel_then_run_quiesces :
    (WAction.ctxCancel ∈ rtspSourceClose) ∧
      (WAction.wgWait ∉ rtspSourceClose) ∧
      (∀ (envs : List InnerEnv),
        (rtspSourceRun envs).2 = RunOutcome.stopped →
        ∃ t0, (rtspSourceRun envs).1 = t0 ++ [WAction.wgDone]) ∧
      (∀ (envs : List InnerEnv),
        readyOkCount (rtspSourceRun envs).1 =
          notReadyCount (rtspSourceRun envs).1) := by
  refine ⟨by decide, by decide, ?_, fun envs => (run_counts_balanced envs).1⟩
  intro envs
  induction envs with
  | nil =>
    intro h
    exact RunOutcome.noConfusion h
  | cons env rest ih =>
    simp only [rtspSourceRun]
    split
    · intro h
      exact RunOutcome.noConfusion h
    · intro _
      exact ⟨(rtspSourceRunInner env).1 ++ [WAction.ctxCancel], by simp⟩
    · split
      · intro _
        exact ⟨(rtspSourceRunInner env).1 ++ [WAction.ctxCancel], by simp⟩
      · intro h
        obtain ⟨t0, ht⟩ := ih h
        exact ⟨(rtspSourceRunInner env).1 ++ WAction.cooldownWait :: t0,
          by simp [ht]⟩

/-- Witness for the amended C3 theorem: the concrete one-iteration run in
which the parent refuses readiness and the cooldown is cancelled stops,
and its trace ends with the WaitGroup release. -/
theorem close_cancel_then_run_quiesces_witness :
    ∃ t0, (rtspSourceRun [readyRefusedEnv]).1 = t0 ++ [WAction.wgDone] :=
  close_cancel_then_run_quiesces.2.2.1 [readyRefusedEnv] (by decide)

/-- C9 counterexample: a terminating run in which the parent refuses the
readiness request never reaches ready (no "ready" log line), yet the
number of on_source_ready calls made to the parent is 1, not 0, while no
on_source_not_ready call is made - refuting the claim that a run which
never reaches ready makes zero on_source_ready calls. -/
theorem refused_ready_unbalanced_counts :
    (rtspSourceRun [readyRefusedEnv]).2 = RunOutcome.stopped ∧
      WAction.logInfo LogMsg.ready ∉ (rtspSourceRun [readyRefusedEnv]).1 ∧
      readyCallCount (rtspSourceRun [readyRefusedEnv]).1 = 1 ∧
      notReadyCount (rtspSourceRun [readyRefusedEnv]).1 = 0 := by
  decide

/-- C9 (amended): in every run of the worker (terminating or not), the
number of accepted on_source_ready calls equals the number of
on_source_not_ready calls, and equals the number of times the worker
logged "ready" (reached the ready state); a refused on_source_ready call
is not paired with a not-ready call.  In particular a run that never
reaches ready makes no not-ready calls. -/
theorem run_ready_notReady_pairing :
    ∀ (envs : List InnerEnv),
      readyOkCount (rtspSourceRun envs).1 =
          notReadyCount (rtspSourceRun envs).1 ∧
        readyLogCount (rtspSourceRun envs).1 =
          readyOkCount (rtspSourceRun envs).1 :=
  run_counts_balanced
